import Mathlib

/-
Verification development for the stock-price web service
(app/services/stock_info.py, app/routers.py, app/schemas.py).

Modelling conventions:
 - A pandas DataFrame of daily price rows is a `List Row`, one `Row` per
   trading day.  Prices are exact rationals (ℚ); the binary-float noise of
   the scraper is outside the model, but which fields are rounded, and to
   how many places, follows the source exactly.
 - A raised Python exception is an `Except` error value.  `PyErr.valueErr`
   is a `ValueError`, `PyErr.exn` a plain `Exception`; the routers map the
   two to HTTP statuses with distinct `except` clauses, so the distinction
   is kept.
 - The yfinance provider (`Ticker.history`) is an explicit parameter: an
   `Except String (List Row)` result (error = the provider call raised).
 - `datetime.now().isoformat()` is an explicit `now : String` parameter.
-/

namespace StockWS

/-- One row of the provider's DataFrame: one trading day.
`dividends` / `stock_splits` are `none` when the column is absent from the
provider's table for that row. -/
structure Row where
  date : String
  «open» : ℚ
  high : ℚ
  low : ℚ
  close : ℚ
  volume : ℕ
  dividends : Option ℚ
  stock_splits : Option ℚ
  deriving Repr, DecidableEq

/-- `DECIMAL_PLACES = 2` from app/services/stock_info.py. -/
def DECIMAL_PLACES : ℕ := 2

/-- Round-half-to-even of a rational to an integer, modelling numpy/pandas
rounding used by `DataFrame.round` (ties go to the even integer). -/
def roundHalfEven (q : ℚ) : ℤ :=
  let f := ⌊q⌋
  let frac := q - f
  if frac < 1/2 then f
  else if 1/2 < frac then f + 1
  else if f % 2 = 0 then f else f + 1

/-- `DataFrame.round(DECIMAL_PLACES)` on a single value: round to
`DECIMAL_PLACES` decimal places. -/
def roundPrice (q : ℚ) : ℚ :=
  (roundHalfEven (q * (10 : ℚ) ^ DECIMAL_PLACES) : ℚ) / (10 : ℚ) ^ DECIMAL_PLACES

/-- `self.prices[price_columns] = self.prices[price_columns].round(DECIMAL_PLACES)`:
only the four price columns are rounded; Volume, Dividends and Stock Splits
are left untouched. -/
def roundRow (r : Row) : Row :=
  { r with «open» := roundPrice r.«open», high := roundPrice r.high,
           low := roundPrice r.low, close := roundPrice r.close }

/-- Rounding applied to the whole cached table (guarded by `DECIMAL_PLACES > 0`
in the source; `DECIMAL_PLACES = 2`). -/
def roundTable (t : List Row) : List Row :=
  if DECIMAL_PLACES > 0 then t.map roundRow else t

/-- Python exception taxonomy as observed by the routers:
`ValueError` vs any other `Exception`. -/
inductive PyErr where
  | valueErr (msg : String)
  | exn (msg : String)
  deriving Repr, DecidableEq

/-- `str(e)` of a modelled exception. -/
def PyErr.msg : PyErr → String
  | .valueErr m => m
  | .exn m => m

/-- Body of the `try:` block of `StockInfo.get_prices`: fetch the history,
raise `ValueError` if it is empty, otherwise round the price columns. -/
def get_prices_try (symbol : String) (providerResult : Except String (List Row)) :
    Except PyErr (List Row) :=
  match providerResult with
  | .error m => .error (.exn m)
  | .ok t =>
    if t.isEmpty then
      .error (.valueErr ("No data available for symbol " ++ symbol ++
        ". Please check if the symbol is correct."))
    else
      .ok (roundTable t)

/-- `StockInfo.get_prices`: the blanket `except Exception as e:` re-raises
EVERY exception from the try block — including the `ValueError` raised for
an empty result — as a plain `Exception` with added context. -/
def get_prices (symbol : String) (providerResult : Except String (List Row)) :
    Except PyErr (List Row) :=
  match get_prices_try symbol providerResult with
  | .error e => .error (.exn ("Error fetching data for " ++ symbol ++ ": " ++ e.msg))
  | .ok t => .ok t

/-- One record of `StockInfo.as_list` output.  `dividends` / `stock_splits`
are `some v` exactly when the corresponding key is put into the dict. -/
structure PriceRecord where
  date : String
  «open» : ℚ
  high : ℚ
  low : ℚ
  close : ℚ
  volume : ℕ
  dividends : Option ℚ
  stock_splits : Option ℚ
  deriving Repr, DecidableEq

/-- The per-row dict built by `StockInfo.as_list`.  The optional keys mirror
`if 'Dividends' in row and row['Dividends'] and float(row['Dividends']) > 0`:
column present, value truthy (≠ 0) and strictly positive. -/
def rowRecord (row : Row) : PriceRecord :=
  { date := row.date, «open» := row.«open», high := row.high, low := row.low,
    close := row.close, volume := row.volume,
    dividends := match row.dividends with
      | some d => if d ≠ 0 ∧ 0 < d then some d else none
      | none => none,
    stock_splits := match row.stock_splits with
      | some s => if s ≠ 0 ∧ 0 < s then some s else none
      | none => none }

/-- The cached `self.prices` attribute: `none` models Python `None`,
`some []` the initial empty DataFrame. -/
def noData (prices : Option (List Row)) : Bool :=
  match prices with
  | none => true
  | some t => t.isEmpty

/-- `StockInfo.as_list`: guard `self.prices is None or self.prices.empty`,
then one dict per row. -/
def as_list (prices : Option (List Row)) : Except PyErr (List PriceRecord) :=
  if noData prices then
    .error (.valueErr "No price data cached. Please call get_prices(n) first.")
  else
    .ok ((prices.getD []).map rowRecord)

/-- `StockInfo.as_dataframe`: same guard, returns the cached table. -/
def as_dataframe (prices : Option (List Row)) : Except PyErr (List Row) :=
  if noData prices then
    .error (.valueErr "No price data cached. Please call get_prices(n) first.")
  else
    .ok (prices.getD [])

/-- `StockInfo(symbol).get_prices(limit).as_list()`: fetch then render. -/
def fetch_records (symbol : String) (providerResult : Except String (List Row)) :
    Except PyErr (List PriceRecord) :=
  match get_prices symbol providerResult with
  | .error e => .error e
  | .ok t => as_list (some t)

/-- Python `str.lower()` (per-character, which agrees with Python on the
ASCII strings involved here). -/
def pyLower (s : String) : String := ⟨s.data.map Char.toLower⟩

/-- Python `str.upper()` (per-character, ASCII). -/
def pyUpper (s : String) : String := ⟨s.data.map Char.toUpper⟩

/-- A JSON value, as produced by `json.dumps` / consumed by `json.loads`.
Object fields keep insertion order, as Python dicts do. -/
inductive Json where
  | null
  | bool (b : Bool)
  | num (q : ℚ)
  | str (s : String)
  | arr (xs : List Json)
  | obj (fields : List (String × Json))
  deriving Repr

/-- Field lookup in a JSON object. -/
def lookupField (j : Json) (k : String) : Option Json :=
  match j with
  | .obj fs => (fs.find? (fun f => decide (f.1 = k))).map (fun f => f.2)
  | _ => none

/-- The JSON value of one `as_list` record: the dict literal of
`StockInfo.as_list` (keys in insertion order, optional keys appended only
when they were added). -/
def recordJson (p : PriceRecord) : Json :=
  .obj ([("date", .str p.date), ("open", .num p.«open»), ("high", .num p.high),
         ("low", .num p.low), ("close", .num p.close),
         ("volume", .num (p.volume : ℚ))]
    ++ (match p.dividends with | some d => [("dividends", .num d)] | none => [])
    ++ (match p.stock_splits with | some s => [("stock_splits", .num s)] | none => []))

/-- `StockInfo.get_metadata`: the provider's loosely-typed `ticker.info`
mapping is a key/value list of JSON values; `dict.get` with the defaults of
the source (`longName` → `''`, `currency` → `'USD'`, `marketCap` → `None`,
`sector`/`industry` → `''`). -/
def get_metadata (info : List (String × Json)) : Json :=
  .obj [("name", ((info.find? (fun f => decide (f.1 = "longName"))).map
                    (fun f => f.2)).getD (.str "")),
        ("currency", ((info.find? (fun f => decide (f.1 = "currency"))).map
                    (fun f => f.2)).getD (.str "USD")),
        ("market_cap", ((info.find? (fun f => decide (f.1 = "marketCap"))).map
                    (fun f => f.2)).getD .null),
        ("sector", ((info.find? (fun f => decide (f.1 = "sector"))).map
                    (fun f => f.2)).getD (.str "")),
        ("industry", ((info.find? (fun f => decide (f.1 = "industry"))).map
                    (fun f => f.2)).getD (.str ""))]

/-- `StockInfo.as_json`: renders `as_list` output under the response wrapper
`{symbol, retrieved_at, prices[, metadata]}`; `now` stands for
`datetime.now().isoformat()`, `info` for the provider's `ticker.info`. -/
def as_json (prices : Option (List Row)) (symbol now : String)
    (include_metadata : Bool) (info : List (String × Json)) : Except PyErr Json :=
  match as_list prices with
  | .error e => .error e
  | .ok price_list =>
    .ok (.obj ([("symbol", .str (pyUpper symbol)),
                ("retrieved_at", .str now),
                ("prices", .arr (price_list.map recordJson))]
      ++ (if include_metadata then [("metadata", get_metadata info)] else [])))

/-- One `PriceRecord` message of the Protobuf schema (app/protos/stock.proto):
optional fields are `some` exactly when set. -/
structure PBRecord where
  date : String
  «open» : ℚ
  high : ℚ
  low : ℚ
  close : ℚ
  volume : ℕ
  dividends : Option ℚ
  stock_splits : Option ℚ
  deriving Repr, DecidableEq

/-- The `StockPrices` Protobuf message. -/
structure PBStockPrices where
  symbol : String
  retrieved_at : Option String
  prices : List PBRecord
  deriving Repr, DecidableEq

/-- The per-record body of `as_protobuf` in app/routers.py.  `as_list`
records always carry the six mandatory keys, so the `p.get(key, default)`
defaults never fire; `item.dividends` / `item.stock_splits` are set exactly
when the key is in the dict. -/
def pbRecord (p : PriceRecord) : PBRecord :=
  { date := p.date, «open» := p.«open», high := p.high, low := p.low,
    close := p.close, volume := p.volume,
    dividends := p.dividends, stock_splits := p.stock_splits }

/-- `as_protobuf(symbol, stock_pb2, price_list)` from app/routers.py.
The generated message class does have a `retrieved_at` field (see
stock.proto in the spec), so the `hasattr` guard passes. -/
def as_protobuf (symbol : String) (now : String) (price_list : List PriceRecord) :
    PBStockPrices :=
  { symbol := pyUpper symbol, retrieved_at := some now,
    prices := price_list.map pbRecord }

/-- Is `need` a contiguous substring of `hay`?  Models Python `need in hay`. -/
def containsSub (hay need : String) : Bool :=
  hay.data.tails.any (fun suf => need.data.isPrefixOf suf)

/-- The MIME types the router matches the Accept header against
(`protobuf_types` in app/routers.py — two entries). -/
def protobuf_types : List String := ["application/protobuf", "application/x-protobuf"]

/-- `wants_protobuf = any(t in accept for t in protobuf_types)` over the
lower-cased Accept header (`(request.headers.get("accept") or "").lower()`). -/
def wants_protobuf (accept : String) : Bool :=
  protobuf_types.any (fun t => containsSub (pyLower accept) t)

/-- Outcome of the `GET /stock/{symbol}` endpoint. -/
inductive HttpOutcome where
  | okJson (body : Json)
  | okProtobuf (body : PBStockPrices)
  | httpError (status : ℕ) (detail : String)
  deriving Repr

/-- HTTP status of an outcome. -/
def HttpOutcome.status : HttpOutcome → ℕ
  | .okJson _ => 200
  | .okProtobuf _ => 200
  | .httpError s _ => s

/-- The `except ValueError` / `except Exception` ladder shared by both
branches of `get_stock_prices` in app/routers.py. -/
def errorStatus : PyErr → ℕ
  | .valueErr _ => 404
  | .exn _ => 500

/-- `get_stock_prices` from app/routers.py: content negotiation on the
Accept header, then fetch + render, with the error→status mapping of the
two `except` clauses.  `protobufAvailable` models whether
`app.protos.stock_pb2` imports. -/
def get_stock_prices (symbol accept : String) (protobufAvailable : Bool)
    (providerResult : Except String (List Row)) (now : String) : HttpOutcome :=
  if wants_protobuf accept then
    if ¬ protobufAvailable then
      .httpError 501 ("Protobuf support not available. Generate app/protos/stock_pb2 " ++
        "from app/protos/stock.proto and install the protobuf package.")
    else
      match get_prices symbol providerResult with
      | .error e => .httpError (errorStatus e) e.msg
      | .ok t =>
        match as_list (some t) with
        | .error e => .httpError (errorStatus e) e.msg
        | .ok price_list => .okProtobuf (as_protobuf symbol now price_list)
  else
    match get_prices symbol providerResult with
    | .error e => .httpError (errorStatus e) e.msg
    | .ok t =>
      match as_json (some t) symbol now false [] with
      | .error e => .httpError (errorStatus e) e.msg
      | .ok body => .okJson body

/-!
## The `functools.lru_cache(maxsize=64)` on `StockInfo.get_prices`

`lru_cache` decorates the unbound method, so the cache lives on the class
and its key is the argument tuple `(self, howmany)`.  `StockInfo` defines
neither `__eq__` nor `__hash__`, so `self` is keyed by object identity —
modelled by `Inst.id`.  Only calls that RETURN are memoised: a call that
raises stores nothing.

Crucially, what the cache stores for a key is `self` — the mutable
`StockInfo` object — not a snapshot of its data.  The method returns
`self`, and every EXECUTED (cache-missing) call overwrites the single
`self.prices` attribute; a hit therefore yields the object with whatever
table the most recent executed fetch on that instance left behind.  The
model keeps the cache's key list (`entries`, recency-ordered) apart from
the per-instance `prices` attributes (`tables`, one slot per object id).
`self.prices` is assigned the fetched frame BEFORE the empty check, so an
empty result overwrites it with the empty frame even though the call then
raises; a raising `history()` call leaves it untouched.
-/

/-- `maxsize=64`. -/
def MAXSIZE : ℕ := 64

/-- A `StockInfo` object as a cache-key constituent: object identity plus
the symbol of its `ticker`. -/
structure Inst where
  id : ℕ
  symbol : String
  deriving Repr, DecidableEq

/-- The lru_cache key list (most-recently-used first), the `self.prices`
attribute of each instance (by object id), and a count of provider
queries performed (`self.ticker.history(...)` calls). -/
structure Cache where
  entries : List (ℕ × ℕ)
  tables : List (ℕ × List Row)
  queries : ℕ
  deriving Repr, DecidableEq

/-- Empty cache, no instance has fetched yet. -/
def Cache.empty : Cache := { entries := [], tables := [], queries := 0 }

/-- Look a key up in the lru_cache key list. -/
def cacheFind (k : ℕ × ℕ) (es : List (ℕ × ℕ)) : Option (ℕ × ℕ) :=
  es.find? (fun e => decide (e = k))

/-- Remove a key from the key list (used to move an entry to the front on
a hit). -/
def cacheRemove (k : ℕ × ℕ) (es : List (ℕ × ℕ)) : List (ℕ × ℕ) :=
  es.filter (fun e => decide (e ≠ k))

/-- The current `self.prices` of instance `i` (`none` = never assigned). -/
def lookupTable (i : ℕ) (ts : List (ℕ × List Row)) : Option (List Row) :=
  (ts.find? (fun e => decide (e.1 = i))).map (fun e => e.2)

/-- Overwrite the `self.prices` attribute of instance `i`. -/
def setTable (i : ℕ) (t : List Row) (ts : List (ℕ × List Row)) :
    List (ℕ × List Row) :=
  (i, t) :: ts.filter (fun e => decide (e.1 ≠ i))

/-- The memoised `get_prices` call.  On a hit the key moves to the front,
the provider is not queried, and the memoised `self` is returned — whose
`prices` attribute holds the table of the most recent EXECUTED fetch on
this instance, not necessarily this key's window.  On a miss the provider
is queried; a normal return overwrites `self.prices` with the rounded
table and inserts the key at the front, evicting beyond `MAXSIZE`; a
raising call caches nothing (though an empty result still leaves the
empty frame in `self.prices`, since the attribute is assigned before the
empty check). -/
def cachedGetPrices (provider : String → ℕ → Except String (List Row))
    (inst : Inst) (w : ℕ) (c : Cache) : Cache × Except PyErr (List Row) :=
  match cacheFind (inst.id, w) c.entries with
  | some _ =>
    ({ c with entries := (inst.id, w) :: cacheRemove (inst.id, w) c.entries },
     .ok ((lookupTable inst.id c.tables).getD []))
  | none =>
    let c1 : Cache := { c with queries := c.queries + 1 }
    match get_prices inst.symbol (provider inst.symbol w) with
    | .ok t =>
      ({ c1 with entries := ((inst.id, w) :: c1.entries).take MAXSIZE,
                 tables := setTable inst.id t c1.tables }, .ok t)
    | .error e =>
      ({ c1 with tables := match provider inst.symbol w with
           | .ok _ => setTable inst.id [] c1.tables
           | .error _ => c1.tables }, .error e)

/-- Run a sequence of `get_prices` calls against the shared cache. -/
def runFetches (provider : String → ℕ → Except String (List Row))
    (calls : List (Inst × ℕ)) (c : Cache) : Cache :=
  match calls with
  | [] => c
  | (inst, w) :: rest => runFetches provider rest (cachedGetPrices provider inst w c).1

/-- Invariant for LRU reasoning: key `k` is in the key list at depth at
most `n` (all keys in front of it differ). -/
def KeyAt (k : ℕ × ℕ) (n : ℕ) (es : List (ℕ × ℕ)) : Prop :=
  ∃ pre post, es = pre ++ k :: post ∧ pre.length ≤ n ∧ ∀ e ∈ pre, e ≠ k

/-!
## Concrete sample data (used by witnesses and counterexamples)
-/

/-- A provider row with the close of the spec's example scenario
(`Close=…153.45`) and scraping noise in the price fields. -/
def sampleRow : Row :=
  { date := "2026-02-06", «open» := 151223/1000, high := 152341/1000,
    low := 1497/10, close := 15345/100, volume := 98765432,
    dividends := some 0, stock_splits := none }

/-- A row whose raw dividend and stock-split values are 0. -/
def divZeroRow : Row :=
  { date := "2026-02-05", «open» := 1, high := 1, low := 1, close := 1,
    volume := 5, dividends := some 0, stock_splits := some 0 }

/-- A row with a positive dividend and a positive stock split. -/
def divPosRow : Row :=
  { date := "2026-02-06", «open» := 2, high := 2, low := 2, close := 2,
    volume := 6, dividends := some (1/2), stock_splits := some 4 }

/-- A provider that always succeeds with one fixed row. -/
def demoProvider : String → ℕ → Except String (List Row) :=
  fun _ _ => .ok [divPosRow]

/-- A row whose volume records the requested window, to tell the results
of different fetches apart. -/
def volRow (n : ℕ) : Row :=
  { date := "2026-01-02", «open» := 1, high := 1, low := 1, close := 1,
    volume := n, dividends := none, stock_splits := none }

/-- A provider whose result depends on the requested window. -/
def windowProvider : String → ℕ → Except String (List Row) :=
  fun _ w => .ok [volRow w]

/-- A `StockInfo` object (identity 0) for symbol AAPL. -/
def demoInst : Inst := { id := 0, symbol := "AAPL" }

/-- 65 fetches with distinct windows 1..65 on one instance, then a re-fetch
of window 1 (which the 65th distinct key evicted). -/
def evictionCalls : List (Inst × ℕ) :=
  ((List.range 65).map (fun i => (demoInst, i + 1))) ++ [(demoInst, 1)]

/-!
## Helper lemmas
-/

/-- The dict key `dividends` of an `as_list` record: the double test
`row['Dividends'] and float(row['Dividends']) > 0` collapses to
strict positivity. -/
theorem rowRecord_dividends (row : Row) :
    (rowRecord row).dividends =
      match row.dividends with
      | some d => if 0 < d then some d else none
      | none => none := by
  cases hdv : row.dividends with
  | none => simp [rowRecord, hdv]
  | some d =>
    simp only [rowRecord, hdv]
    split_ifs with h1 h2 h2
    · rfl
    · exact absurd h1.2 h2
    · exact absurd ⟨h2.ne', h2⟩ h1
    · rfl

/-- Same collapse for the `stock_splits` key. -/
theorem rowRecord_stock_splits (row : Row) :
    (rowRecord row).stock_splits =
      match row.stock_splits with
      | some s => if 0 < s then some s else none
      | none => none := by
  cases hsp : row.stock_splits with
  | none => simp [rowRecord, hsp]
  | some s =>
    simp only [rowRecord, hsp]
    split_ifs with h1 h2 h2
    · rfl
    · exact absurd h1.2 h2
    · exact absurd ⟨h2.ne', h2⟩ h1
    · rfl

/-- `roundRow` does not touch the dividends column. -/
theorem roundRow_dividends (row : Row) : (roundRow row).dividends = row.dividends := rfl

/-- `roundRow` does not touch the stock-splits column. -/
theorem roundRow_stock_splits (row : Row) :
    (roundRow row).stock_splits = row.stock_splits := rfl

/-- A nonempty fetched table renders to one record per row. -/
theorem as_list_ok (prices : List Row) (h : prices ≠ []) :
    as_list (some prices) = .ok (prices.map rowRecord) := by
  simp [as_list, noData, List.isEmpty_iff, h]

/-- A provider whose result set is empty (invalid/delisted symbol). -/
def emptyProvider : String → ℕ → Except String (List Row) := fun _ _ => .ok []

/-- A cached key is found. -/
theorem KeyAt.find {k : ℕ × ℕ} {n : ℕ} {es : List (ℕ × ℕ)} (h : KeyAt k n es) :
    cacheFind k es = some k := by
  obtain ⟨pre, post, rfl, hlen, hpre⟩ := h
  unfold cacheFind
  have h1 : pre.find? (fun e => decide (e = k)) = none := by
    rw [List.find?_eq_none]
    intro x hx
    simpa using hpre x hx
  have h2 : List.find? (fun e => decide (e = k)) (k :: post) = some k :=
    List.find?_cons_of_pos _ (by simp)
  rw [List.find?_append, h1, h2]
  rfl

/-- One memoised call with a DIFFERENT key pushes a cached key at most one
slot deeper, and cannot push it out while its depth stays under the
capacity. -/
theorem KeyAt.step (provider : String → ℕ → Except String (List Row))
    (inst : Inst) (w : ℕ) (c : Cache) {k : ℕ × ℕ} {n : ℕ}
    (hne : (inst.id, w) ≠ k) (hn : n ≤ MAXSIZE - 2)
    (h : KeyAt k n c.entries) :
    KeyAt k (n + 1) ((cachedGetPrices provider inst w c).1).entries := by
  obtain ⟨pre, post, hes, hlen, hpre⟩ := h
  cases hf : cacheFind (inst.id, w) c.entries with
  | some kHit =>
    simp only [cachedGetPrices, hf]
    refine ⟨(inst.id, w) :: pre.filter (fun e => decide (e ≠ (inst.id, w))),
            post.filter (fun e => decide (e ≠ (inst.id, w))), ?_, ?_, ?_⟩
    · have hkeep : (decide (k ≠ (inst.id, w))) = true := by
        simp
        exact fun hh => hne hh.symm
      simp only [hes, cacheRemove, List.filter_append, List.filter_cons, hkeep,
        if_pos]
      simp
    · have := List.length_filter_le (fun e => decide (e ≠ (inst.id, w))) pre
      simp only [List.length_cons]
      omega
    · intro e he
      rcases List.mem_cons.mp he with rfl | hmem
      · exact hne
      · exact hpre e (List.mem_of_mem_filter hmem)
  | none =>
    cases hp : get_prices inst.symbol (provider inst.symbol w) with
    | ok tNew =>
      simp only [cachedGetPrices, hf, hp]
      have hAlen : ((inst.id, w) :: pre).length ≤ MAXSIZE := by
        simp only [List.length_cons, MAXSIZE]
        have : MAXSIZE - 2 = 62 := rfl
        omega
      obtain ⟨m, hm⟩ : ∃ m, MAXSIZE - ((inst.id, w) :: pre).length = m + 1 := by
        refine ⟨MAXSIZE - pre.length - 2, ?_⟩
        simp only [List.length_cons, MAXSIZE]
        have : MAXSIZE - 2 = 62 := rfl
        omega
      refine ⟨(inst.id, w) :: pre, post.take m, ?_, ?_, ?_⟩
      · have hsplit : ((inst.id, w) :: c.entries)
            = (((inst.id, w) :: pre) ++ k :: post) := by
          simp [hes]
        rw [hsplit, List.take_append_eq_append_take,
          List.take_of_length_le hAlen, hm, List.take_succ_cons]
      · simp only [List.length_cons]
        omega
      · intro e he
        rcases List.mem_cons.mp he with rfl | hmem
        · exact hne
        · exact hpre e hmem
    | error eFail =>
      simp only [cachedGetPrices, hf, hp]
      exact ⟨pre, post, hes, Nat.le_succ_of_le hlen, hpre⟩

/-- A run of memoised calls, none of which uses key `k`, pushes `k` at most
`calls.length` slots deeper. -/
theorem KeyAt.run (provider : String → ℕ → Except String (List Row))
    (calls : List (Inst × ℕ)) {k : ℕ × ℕ} {n : ℕ} (c : Cache)
    (hk : ∀ x ∈ calls, (x.1.id, x.2) ≠ k)
    (hlen : n + calls.length ≤ MAXSIZE - 1)
    (h : KeyAt k n c.entries) :
    KeyAt k (n + calls.length) (runFetches provider calls c).entries := by
  induction calls generalizing c n with
  | nil => simpa [runFetches] using h
  | cons x rest ih =>
    obtain ⟨xi, xw⟩ := x
    have hstep := KeyAt.step provider xi xw c (hk (xi, xw) (by simp))
      (by simp only [List.length_cons] at hlen; omega) h
    have hrest := ih ((cachedGetPrices provider xi xw c).1)
      (fun y hy => hk y (List.mem_cons_of_mem _ hy))
      (by simp only [List.length_cons] at hlen; omega) hstep
    simp only [runFetches]
    have harith : n + 1 + rest.length = n + (rest.length + 1) := by omega
    simpa [List.length_cons, harith] using hrest

/-- A successful memoised call puts its key at the very front. -/
theorem KeyAt.of_fetch (provider : String → ℕ → Except String (List Row))
    (inst : Inst) (w : ℕ) (c : Cache) (t : List Row)
    (h : (cachedGetPrices provider inst w c).2 = .ok t) :
    KeyAt (inst.id, w) 0 ((cachedGetPrices provider inst w c).1).entries := by
  cases hf : cacheFind (inst.id, w) c.entries with
  | some kHit =>
    simp only [cachedGetPrices, hf]
    exact ⟨[], _, rfl, le_rfl, by simp⟩
  | none =>
    cases hp : get_prices inst.symbol (provider inst.symbol w) with
    | ok tNew =>
      simp only [cachedGetPrices, hf, hp]
      refine ⟨[], c.entries.take 63, ?_, le_rfl, by simp⟩
      rw [show MAXSIZE = 63 + 1 from rfl, List.take_succ_cons]
      simp
    | error eFail =>
      simp only [cachedGetPrices, hf, hp] at h
      exact absurd h (by simp)

/-- A hit returns the memoised `self`, i.e. the instance's CURRENT price
table, and performs no provider query. -/
theorem cachedGetPrices_hit (provider : String → ℕ → Except String (List Row))
    (inst : Inst) (w : ℕ) (c : Cache) (k0 : ℕ × ℕ)
    (h : cacheFind (inst.id, w) c.entries = some k0) :
    (cachedGetPrices provider inst w c).2 =
      .ok ((lookupTable inst.id c.tables).getD []) ∧
    (cachedGetPrices provider inst w c).1.queries = c.queries := by
  simp [cachedGetPrices, h]

/-- `find?` is unchanged by filtering with a predicate that keeps every
possible match. -/
theorem find?_filter_of_imp {α : Type} (p q : α → Bool) (l : List α)
    (h : ∀ e, p e = true → q e = true) :
    (l.filter q).find? p = l.find? p := by
  induction l with
  | nil => rfl
  | cons a as ih =>
    by_cases hq : q a = true
    · rw [List.filter_cons_of_pos hq]
      by_cases hp : p a = true
      · rw [List.find?_cons_of_pos _ hp, List.find?_cons_of_pos _ hp]
      · rw [List.find?_cons_of_neg _ hp, List.find?_cons_of_neg _ hp, ih]
    · rw [List.filter_cons_of_neg (by simpa using hq)]
      have hp : ¬ p a = true := fun hpa => hq (h a hpa)
      rw [List.find?_cons_of_neg _ hp, ih]

/-- Overwriting the attribute of instance `i` makes it the current value. -/
theorem lookupTable_setTable_same (i : ℕ) (t : List Row)
    (ts : List (ℕ × List Row)) :
    lookupTable i (setTable i t ts) = some t := by
  unfold lookupTable setTable
  rw [List.find?_cons_of_pos _ (by simp)]
  rfl

/-- Overwriting instance `j`'s attribute does not affect instance `i`'s. -/
theorem lookupTable_setTable_ne {i j : ℕ} (t : List Row)
    (ts : List (ℕ × List Row)) (h : i ≠ j) :
    lookupTable i (setTable j t ts) = lookupTable i ts := by
  unfold lookupTable setTable
  rw [List.find?_cons_of_neg _ (by simp only [decide_eq_true_eq]; exact fun hh => h hh.symm)]
  rw [find?_filter_of_imp]
  intro e he
  simp only [decide_eq_true_eq] at he ⊢
  rw [he]
  exact h

/-- A memoised call on one instance leaves every other instance's `prices`
attribute unchanged. -/
theorem lookupTable_step_ne (provider : String → ℕ → Except String (List Row))
    (inst : Inst) (w : ℕ) (c : Cache) {i : ℕ} (h : inst.id ≠ i) :
    lookupTable i ((cachedGetPrices provider inst w c).1).tables =
      lookupTable i c.tables := by
  cases hf : cacheFind (inst.id, w) c.entries with
  | some k0 => simp only [cachedGetPrices, hf]
  | none =>
    cases hp : get_prices inst.symbol (provider inst.symbol w) with
    | ok tNew =>
      simp only [cachedGetPrices, hf, hp]
      exact lookupTable_setTable_ne tNew c.tables h.symm
    | error eFail =>
      simp only [cachedGetPrices, hf, hp]
      cases hpr : provider inst.symbol w with
      | ok raw => exact lookupTable_setTable_ne [] c.tables h.symm
      | error m => rfl

/-- A run of memoised calls on other instances leaves instance `i`'s
`prices` attribute unchanged. -/
theorem lookupTable_run_ne (provider : String → ℕ → Except String (List Row))
    (calls : List (Inst × ℕ)) (c : Cache) {i : ℕ}
    (hk : ∀ x ∈ calls, x.1.id ≠ i) :
    lookupTable i (runFetches provider calls c).tables =
      lookupTable i c.tables := by
  induction calls generalizing c with
  | nil => rfl
  | cons x rest ih =>
    obtain ⟨xi, xw⟩ := x
    simp only [runFetches]
    rw [ih _ (fun y hy => hk y (List.mem_cons_of_mem _ hy))]
    exact lookupTable_step_ne provider xi xw c (hk (xi, xw) (by simp))

/-- After a call that returns `.ok t`, the instance's `prices` attribute
holds `t`. -/
theorem table_of_fetch (provider : String → ℕ → Except String (List Row))
    (inst : Inst) (w : ℕ) (c : Cache) (t : List Row)
    (h : (cachedGetPrices provider inst w c).2 = .ok t) :
    (lookupTable inst.id ((cachedGetPrices provider inst w c).1).tables).getD [] = t := by
  cases hf : cacheFind (inst.id, w) c.entries with
  | some k0 =>
    simp only [cachedGetPrices, hf] at h ⊢
    simpa using h
  | none =>
    cases hp : get_prices inst.symbol (provider inst.symbol w) with
    | ok tNew =>
      simp only [cachedGetPrices, hf, hp] at h ⊢
      obtain rfl : tNew = t := by simpa using h
      rw [lookupTable_setTable_same]
      rfl
    | error eFail =>
      simp only [cachedGetPrices, hf, hp] at h
      exact absurd h (by simp)

/-!
## Claims
-/

/-- C1: the claim says an empty provider result is surfaced as the
not-found error and mapped to HTTP 404.  In the code, the `ValueError`
raised for an empty result is caught by the blanket
`except Exception as e:` inside `get_prices` itself and re-raised as a
plain `Exception`, so the router's `except ValueError` (the 404 arm)
never sees it: the endpoint answers 500 (with a detail string), not 404.
This contradicts `get_prices`'s own docstring (`:raises ValueError: If
invalid parameter or no data available`) and the router's declared
`404: Stock symbol not found` response, so it is a bug in the code. -/
theorem C1_empty_result_maps_to_500 :
    get_prices "ZZZZINVALID" (.ok []) =
      .error (.exn ("Error fetching data for ZZZZINVALID: " ++
        "No data available for symbol ZZZZINVALID. " ++
        "Please check if the symbol is correct.")) ∧
    get_stock_prices "ZZZZINVALID" "application/json" true (.ok []) "2026-10-12T00:00:00" =
      .httpError 500 ("Error fetching data for ZZZZINVALID: " ++
        "No data available for symbol ZZZZINVALID. " ++
        "Please check if the symbol is correct.") ∧
    (get_stock_prices "ZZZZINVALID" "application/json" true (.ok []) "2026-10-12T00:00:00").status
      ≠ 404 :=
  ⟨rfl, rfl, by decide⟩

/-- C2 counterexample: the router matches only TWO tokens
(`application/protobuf`, `application/x-protobuf`); the third token of the
claim, `application/vnd.google.protobuf`, contains neither as a substring,
so a request with exactly that Accept header — which the claim says must
select binary — selects JSON (here it returns 200 JSON even though the
protobuf capability is absent, instead of the 501 the binary path gives). -/
theorem C2_counterexample_vnd_google :
    containsSub (pyLower "application/vnd.google.protobuf")
      "application/vnd.google.protobuf" = true ∧
    wants_protobuf "application/vnd.google.protobuf" = false ∧
    (get_stock_prices "AAPL" "application/vnd.google.protobuf" false
      (.ok [sampleRow]) "2026-10-12T00:00:00").status = 200 := by
  refine ⟨by decide, by decide, rfl⟩

/-- C2 as amended: the Accept header is lower-cased and matched by
substring against the TWO tokens `application/protobuf` and
`application/x-protobuf`; binary is selected iff the header contains one
of the two, otherwise JSON. -/
theorem C2_two_token_negotiation (accept : String) :
    wants_protobuf accept = true ↔
      (containsSub (pyLower accept) "application/protobuf" = true ∨
       containsSub (pyLower accept) "application/x-protobuf" = true) := by
  simp [wants_protobuf, protobuf_types]

/-- C6: with no successfully fetched price table (cached table absent or
empty — `self.prices is None or self.prices.empty`), every render
operation (`as_list`, `as_json`, `as_dataframe`) raises the no-data
`ValueError` instead of returning a value. -/
theorem C6_render_before_fetch (prices : Option (List Row))
    (h : noData prices = true) :
    as_list prices =
      .error (.valueErr "No price data cached. Please call get_prices(n) first.") ∧
    (∀ symbol now include_metadata info,
      as_json prices symbol now include_metadata info =
        .error (.valueErr "No price data cached. Please call get_prices(n) first.")) ∧
    as_dataframe prices =
      .error (.valueErr "No price data cached. Please call get_prices(n) first.") := by
  refine ⟨by simp [as_list, h], ?_, by simp [as_dataframe, h]⟩
  intro symbol now include_metadata info
  simp [as_json, as_list, h]

/-- C6 witness: a freshly constructed `StockInfo` has the empty table. -/
theorem C6_witness :
    noData (some ([] : List Row)) = true ∧
    as_list (some ([] : List Row)) =
      .error (.valueErr "No price data cached. Please call get_prices(n) first.") :=
  ⟨rfl, (C6_render_before_fetch (some []) rfl).1⟩

/-- C9 counterexample: for a provider metadata map with no `currency` key,
`get_metadata` fills in the literal default `"USD"` — which is neither the
empty string nor null, contrary to the claim that every absent field maps
to empty-string or null. -/
theorem C9_counterexample_currency_default :
    lookupField (get_metadata []) "currency" = some (.str "USD") ∧
    Json.str "USD" ≠ Json.str "" ∧
    Json.str "USD" ≠ Json.null := by
  refine ⟨rfl, fun h => ?_, fun h => Json.noConfusion h⟩
  injection h with h2
  exact absurd h2 (by decide)

/-- C9 as amended: for EVERY provider metadata map, `get_metadata` is
total (it never raises, in particular not for missing optional fields)
and maps each of the five fields independently: a present provider key is
passed through unchanged, an absent one falls back to the field's
default — the empty string for `name`/`sector`/`industry`, null for
`market_cap`, and the literal string `"USD"` for `currency`.  Partial
maps are covered: each field's absent/present case is stated on its own,
with no assumption about the other keys. -/
theorem C9_metadata_defaults (info : List (String × Json)) :
    (∃ fs, get_metadata info = .obj fs) ∧
    (info.find? (fun f => decide (f.1 = "longName")) = none →
      lookupField (get_metadata info) "name" = some (.str "")) ∧
    (∀ f, info.find? (fun f2 => decide (f2.1 = "longName")) = some f →
      lookupField (get_metadata info) "name" = some f.2) ∧
    (info.find? (fun f => decide (f.1 = "currency")) = none →
      lookupField (get_metadata info) "currency" = some (.str "USD")) ∧
    (∀ f, info.find? (fun f2 => decide (f2.1 = "currency")) = some f →
      lookupField (get_metadata info) "currency" = some f.2) ∧
    (info.find? (fun f => decide (f.1 = "marketCap")) = none →
      lookupField (get_metadata info) "market_cap" = some .null) ∧
    (∀ f, info.find? (fun f2 => decide (f2.1 = "marketCap")) = some f →
      lookupField (get_metadata info) "market_cap" = some f.2) ∧
    (info.find? (fun f => decide (f.1 = "sector")) = none →
      lookupField (get_metadata info) "sector" = some (.str "")) ∧
    (∀ f, info.find? (fun f2 => decide (f2.1 = "sector")) = some f →
      lookupField (get_metadata info) "sector" = some f.2) ∧
    (info.find? (fun f => decide (f.1 = "industry")) = none →
      lookupField (get_metadata info) "industry" = some (.str "")) ∧
    (∀ f, info.find? (fun f2 => decide (f2.1 = "industry")) = some f →
      lookupField (get_metadata info) "industry" = some f.2) := by
  have hname : lookupField (get_metadata info) "name" =
      some (((info.find? (fun f => decide (f.1 = "longName"))).map
        (fun f => f.2)).getD (.str "")) := rfl
  have hcur : lookupField (get_metadata info) "currency" =
      some (((info.find? (fun f => decide (f.1 = "currency"))).map
        (fun f => f.2)).getD (.str "USD")) := rfl
  have hcap : lookupField (get_metadata info) "market_cap" =
      some (((info.find? (fun f => decide (f.1 = "marketCap"))).map
        (fun f => f.2)).getD .null) := rfl
  have hsec : lookupField (get_metadata info) "sector" =
      some (((info.find? (fun f => decide (f.1 = "sector"))).map
        (fun f => f.2)).getD (.str "")) := rfl
  have hind : lookupField (get_metadata info) "industry" =
      some (((info.find? (fun f => decide (f.1 = "industry"))).map
        (fun f => f.2)).getD (.str "")) := rfl
  refine ⟨⟨_, rfl⟩, ?_, ?_, ?_, ?_, ?_, ?_, ?_, ?_, ?_, ?_⟩
  · intro h; rw [hname, h]; rfl
  · intro f h; rw [hname, h]; rfl
  · intro h; rw [hcur, h]; rfl
  · intro f h; rw [hcur, h]; rfl
  · intro h; rw [hcap, h]; rfl
  · intro f h; rw [hcap, h]; rfl
  · intro h; rw [hsec, h]; rfl
  · intro f h; rw [hsec, h]; rfl
  · intro h; rw [hind, h]; rfl
  · intro f h; rw [hind, h]; rfl

/-- C9 witness: a partial provider map carrying only `longName` — the
present key is passed through, the absent `currency` and `marketCap` fall
back to their defaults. -/
theorem C9_witness :
    ([(("longName" : String), Json.str "Apple Inc.")].find?
      (fun f2 => decide (f2.1 = "longName")) = some ("longName", .str "Apple Inc.")) ∧
    ([(("longName" : String), Json.str "Apple Inc.")].find?
      (fun f => decide (f.1 = "currency")) = none) ∧
    lookupField (get_metadata [("longName", .str "Apple Inc.")]) "name" =
      some (.str "Apple Inc.") ∧
    lookupField (get_metadata [("longName", .str "Apple Inc.")]) "currency" =
      some (.str "USD") ∧
    lookupField (get_metadata [("longName", .str "Apple Inc.")]) "market_cap" =
      some .null := by
  refine ⟨rfl, rfl, ?_, ?_, ?_⟩
  · exact (C9_metadata_defaults [("longName", .str "Apple Inc.")]).2.2.1
      ("longName", .str "Apple Inc.") rfl
  · exact (C9_metadata_defaults [("longName", .str "Apple Inc.")]).2.2.2.1 rfl
  · exact (C9_metadata_defaults [("longName", .str "Apple Inc.")]).2.2.2.2.2.1 rfl

/-- C3: after a successful fetch, every record's four price fields equal
the provider's raw value rounded to 2 decimal places, while the dividends
and stock-splits values, when present, are the raw values with no rounding
applied (the fetched table is the raw table with `roundRow` mapped over
it, and `roundRow` touches only the four price columns). -/
theorem C3_price_rounding (symbol : String) (raws : List Row) (h : raws ≠ []) :
    fetch_records symbol (.ok raws) = .ok ((raws.map roundRow).map rowRecord) ∧
    ∀ r : Row,
      (rowRecord (roundRow r)).«open» = roundPrice r.«open» ∧
      (rowRecord (roundRow r)).high = roundPrice r.high ∧
      (rowRecord (roundRow r)).low = roundPrice r.low ∧
      (rowRecord (roundRow r)).close = roundPrice r.close ∧
      (∀ d, (rowRecord (roundRow r)).dividends = some d → r.dividends = some d) ∧
      (∀ s, (rowRecord (roundRow r)).stock_splits = some s → r.stock_splits = some s) := by
  constructor
  · have hne : raws.isEmpty = false := by simp [List.isEmpty_iff, h]
    have hmap : raws.map roundRow ≠ [] := by simp [h]
    simp [fetch_records, get_prices, get_prices_try, hne, roundTable,
      DECIMAL_PLACES, as_list_ok _ hmap]
  · intro r
    refine ⟨rfl, rfl, rfl, rfl, ?_, ?_⟩
    · intro d hd
      rw [rowRecord_dividends, roundRow_dividends] at hd
      cases hr : r.dividends with
      | none => rw [hr] at hd; exact absurd hd (by simp)
      | some v =>
        rw [hr] at hd
        dsimp only at hd
        split_ifs at hd with hv
        exact hd
    · intro s hs
      rw [rowRecord_stock_splits, roundRow_stock_splits] at hs
      cases hr : r.stock_splits with
      | none => rw [hr] at hs; exact absurd hs (by simp)
      | some v =>
        rw [hr] at hs
        dsimp only at hs
        split_ifs at hs with hv
        exact hs

/-- C3 witness: a one-row fetch; `open=151.223` rounds to `151.22`,
`high=152.341` to `152.34`, the zero dividend is omitted. -/
theorem C3_witness :
    ([sampleRow] : List Row) ≠ [] ∧
    fetch_records "AAPL" (.ok [sampleRow]) =
      .ok [{ date := "2026-02-06", «open» := 7561/50, high := 7617/50,
             low := 1497/10, close := 3069/20, volume := 98765432,
             dividends := none, stock_splits := none }] := by
  refine ⟨by simp, ?_⟩
  rw [(C3_price_rounding "AAPL" [sampleRow] (by simp)).1]
  norm_num [sampleRow, roundRow, rowRecord, roundPrice, roundHalfEven, DECIMAL_PLACES]

/-- C4: in every record produced by `as_list`, the `dividends` key is
absent when the raw dividend for the day is ≤ 0 (or the column is absent)
and present with the raw value when it is > 0; a present value is always
> 0; and the same holds for `stock_splits`. -/
theorem C4_optional_keys (prices : List Row) (recs : List PriceRecord)
    (h : as_list (some prices) = .ok recs) :
    recs = prices.map rowRecord ∧
    ∀ r : Row,
      (r.dividends = none → (rowRecord r).dividends = none) ∧
      (∀ d, r.dividends = some d → d ≤ 0 → (rowRecord r).dividends = none) ∧
      (∀ d, r.dividends = some d → 0 < d → (rowRecord r).dividends = some d) ∧
      (∀ d, (rowRecord r).dividends = some d → 0 < d) ∧
      (r.stock_splits = none → (rowRecord r).stock_splits = none) ∧
      (∀ s, r.stock_splits = some s → s ≤ 0 → (rowRecord r).stock_splits = none) ∧
      (∀ s, r.stock_splits = some s → 0 < s → (rowRecord r).stock_splits = some s) ∧
      (∀ s, (rowRecord r).stock_splits = some s → 0 < s) := by
  constructor
  · by_cases hnd : noData (some prices) = true
    · rw [as_list, if_pos hnd] at h
      exact absurd h (by simp)
    · rw [as_list, if_neg hnd] at h
      simpa using h.symm
  · intro r
    refine ⟨?_, ?_, ?_, ?_, ?_, ?_, ?_, ?_⟩
    · intro hn; rw [rowRecord_dividends, hn]
    · intro d hd hle
      rw [rowRecord_dividends, hd]
      simp [not_lt.mpr hle]
    · intro d hd hpos
      rw [rowRecord_dividends, hd]
      simp [hpos]
    · intro d hd
      rw [rowRecord_dividends] at hd
      cases hr : r.dividends with
      | none => rw [hr] at hd; exact absurd hd (by simp)
      | some v =>
        rw [hr] at hd
        dsimp only at hd
        split_ifs at hd with hv
        exact (Option.some.inj hd) ▸ hv
    · intro hn; rw [rowRecord_stock_splits, hn]
    · intro s hs hle
      rw [rowRecord_stock_splits, hs]
      simp [not_lt.mpr hle]
    · intro s hs hpos
      rw [rowRecord_stock_splits, hs]
      simp [hpos]
    · intro s hs
      rw [rowRecord_stock_splits] at hs
      cases hr : r.stock_splits with
      | none => rw [hr] at hs; exact absurd hs (by simp)
      | some v =>
        rw [hr] at hs
        dsimp only at hs
        split_ifs at hs with hv
        exact (Option.some.inj hs) ▸ hv

/-- C4 witness: a zero dividend/split day omits both keys; a day with
dividend 0.5 and split 4 carries both raw values. -/
theorem C4_witness :
    as_list (some [divZeroRow, divPosRow]) =
      .ok [rowRecord divZeroRow, rowRecord divPosRow] ∧
    (rowRecord divZeroRow).dividends = none ∧
    (rowRecord divZeroRow).stock_splits = none ∧
    (rowRecord divPosRow).dividends = some (1/2) ∧
    (rowRecord divPosRow).stock_splits = some 4 := by
  have h : as_list (some [divZeroRow, divPosRow]) =
      .ok [rowRecord divZeroRow, rowRecord divPosRow] := by
    simpa using as_list_ok [divZeroRow, divPosRow] (by simp)
  have hc := C4_optional_keys [divZeroRow, divPosRow] _ h
  refine ⟨h, ?_, ?_, ?_, ?_⟩
  · exact (hc.2 divZeroRow).2.1 0 rfl le_rfl
  · exact (hc.2 divZeroRow).2.2.2.2.2.1 0 rfl le_rfl
  · exact (hc.2 divPosRow).2.2.1 (1/2) rfl (by norm_num)
  · exact (hc.2 divPosRow).2.2.2.2.2.2.1 4 rfl (by norm_num)

/-- C7: `as_json` output is exactly the `as_list` record list (encoded
field-for-field) under the wrapper with exactly `symbol` (uppercased) and
`retrieved_at` (the render-time ISO timestamp string), plus `metadata`
only when requested. -/
theorem C7_as_json_roundtrip (prices : Option (List Row)) (symbol now : String)
    (info : List (String × Json)) (recs : List PriceRecord)
    (h : as_list prices = .ok recs) :
    as_json prices symbol now false info =
      .ok (.obj [("symbol", .str (pyUpper symbol)), ("retrieved_at", .str now),
                 ("prices", .arr (recs.map recordJson))]) ∧
    as_json prices symbol now true info =
      .ok (.obj [("symbol", .str (pyUpper symbol)), ("retrieved_at", .str now),
                 ("prices", .arr (recs.map recordJson)),
                 ("metadata", get_metadata info)]) ∧
    ∀ body, as_json prices symbol now false info = .ok body →
      lookupField body "prices" = some (.arr (recs.map recordJson)) ∧
      lookupField body "symbol" = some (.str (pyUpper symbol)) ∧
      lookupField body "retrieved_at" = some (.str now) := by
  have h1 : as_json prices symbol now false info =
      .ok (.obj [("symbol", .str (pyUpper symbol)), ("retrieved_at", .str now),
                 ("prices", .arr (recs.map recordJson))]) := by
    simp [as_json, h]
  refine ⟨h1, by simp [as_json, h], ?_⟩
  intro body hb
  rw [h1] at hb
  cases hb
  exact ⟨rfl, rfl, rfl⟩

/-- C7 witness: one fetched row, lowercase symbol on the instance. -/
theorem C7_witness :
    as_list (some [divPosRow]) = .ok [rowRecord divPosRow] ∧
    as_json (some [divPosRow]) "aapl" "2026-10-12T00:00:00" false [] =
      .ok (.obj [("symbol", .str "AAPL"),
                 ("retrieved_at", .str "2026-10-12T00:00:00"),
                 ("prices", .arr [.obj [("date", .str "2026-02-06"),
                   ("open", .num 2), ("high", .num 2), ("low", .num 2),
                   ("close", .num 2), ("volume", .num 6),
                   ("dividends", .num (1/2)), ("stock_splits", .num 4)]])]) := by
  have h : as_list (some [divPosRow]) = .ok [rowRecord divPosRow] := by
    simpa using as_list_ok [divPosRow] (by simp)
  refine ⟨h, ?_⟩
  have hup : pyUpper "aapl" = "AAPL" := rfl
  rw [(C7_as_json_roundtrip (some [divPosRow]) "aapl" "2026-10-12T00:00:00" []
    [rowRecord divPosRow] h).1, hup]
  norm_num [recordJson, rowRecord, divPosRow]

/-- C8: the JSON and Protobuf renderings are built from the same in-memory
record list — `as_protobuf` maps `pbRecord` and `as_json` maps
`recordJson` over the identical `as_list` output, with no re-fetch — and
for every record the two carry equal values for date, the four prices,
volume, and dividends/stock_splits exactly when present. -/
theorem C8_cross_format_equivalence (symbol now : String) (r : Row) (rs : List Row) :
    get_stock_prices symbol "application/x-protobuf" true (.ok (r :: rs)) now =
      .okProtobuf (as_protobuf symbol now (((r :: rs).map roundRow).map rowRecord)) ∧
    get_stock_prices symbol "application/json" true (.ok (r :: rs)) now =
      .okJson (.obj [("symbol", .str (pyUpper symbol)), ("retrieved_at", .str now),
        ("prices", .arr ((((r :: rs).map roundRow).map rowRecord).map recordJson))]) ∧
    (∀ price_list : List PriceRecord,
      (as_protobuf symbol now price_list).prices = price_list.map pbRecord ∧
      (as_protobuf symbol now price_list).symbol = pyUpper symbol) ∧
    ∀ p : PriceRecord,
      lookupField (recordJson p) "date" = some (.str (pbRecord p).date) ∧
      lookupField (recordJson p) "open" = some (.num (pbRecord p).«open») ∧
      lookupField (recordJson p) "high" = some (.num (pbRecord p).high) ∧
      lookupField (recordJson p) "low" = some (.num (pbRecord p).low) ∧
      lookupField (recordJson p) "close" = some (.num (pbRecord p).close) ∧
      lookupField (recordJson p) "volume" = some (.num ((pbRecord p).volume : ℚ)) ∧
      lookupField (recordJson p) "dividends" = Option.map Json.num (pbRecord p).dividends ∧
      lookupField (recordJson p) "stock_splits" =
        Option.map Json.num (pbRecord p).stock_splits := by
  refine ⟨rfl, rfl, fun price_list => ⟨rfl, rfl⟩, ?_⟩
  intro p
  obtain ⟨pd, po, ph, pl, pc, pv, pdv, psp⟩ := p
  cases pdv <;> cases psp <;> exact ⟨rfl, rfl, rfl, rfl, rfl, rfl, rfl, rfl⟩

/-- C5 counterexample: the lru_cache key is the argument tuple
`(self, howmany)` and `StockInfo` is hashed by object identity, so two
fetches with the SAME (symbol, window) pair on two different instances —
exactly what two HTTP requests produce, since the router builds a fresh
`StockInfo(symbol)` per request — query the provider twice, not once. -/
theorem C5_counterexample_shared_symbol :
    ({ id := 0, symbol := "AAPL" } : Inst).symbol =
      ({ id := 1, symbol := "AAPL" } : Inst).symbol ∧
    (runFetches demoProvider
      [({ id := 0, symbol := "AAPL" }, 5), ({ id := 1, symbol := "AAPL" }, 5)]
      Cache.empty).queries = 2 :=
  ⟨rfl, by decide⟩

set_option maxRecDepth 100000 in
/-- C5 as amended: memoization is keyed by (instance identity, window) —
lru_cache keys the `(self, howmany)` tuple and `StockInfo` hashes by
object identity — with capacity 64 and LRU eviction, and what it memoizes
is the mutable `self` object, not a snapshot of its table.  Proved here:
(1) after a successful fetch of a window on an instance, re-fetching the
same window on the same instance issues no additional provider query as
long as at most 63 distinct-key calls intervene (the distinct keys stay
within the capacity of 64); (2) if those intervening calls moreover run
on other instances, the re-fetch still returns the originally fetched
table — whereas an intervening EXECUTED fetch on the same instance
overwrites `self.prices`, as the next conjunct demonstrates with a
window-varying provider: fetch window 1, fetch window 2, re-fetch
window 1 is a hit that returns window 2's table; (3) a run of 65 distinct
windows on one instance evicts the least-recently-used key, so
re-fetching the evicted window queries the provider again (66 queries in
total, where full memoization would give 65). -/
theorem C5_lru_cache_per_instance
    (provider : String → ℕ → Except String (List Row)) (inst : Inst) (w : ℕ)
    (c : Cache) (t : List Row) (calls : List (Inst × ℕ))
    (h1 : (cachedGetPrices provider inst w c).2 = .ok t)
    (hk : ∀ x ∈ calls, (x.1.id, x.2) ≠ (inst.id, w))
    (hlen : calls.length ≤ 63) :
    (cachedGetPrices provider inst w
        (runFetches provider calls (cachedGetPrices provider inst w c).1)).1.queries =
      (runFetches provider calls (cachedGetPrices provider inst w c).1).queries ∧
    ((∀ x ∈ calls, x.1.id ≠ inst.id) →
      (cachedGetPrices provider inst w
          (runFetches provider calls (cachedGetPrices provider inst w c).1)).2 = .ok t) ∧
    (cachedGetPrices windowProvider demoInst 1
        (runFetches windowProvider [(demoInst, 2)]
          (cachedGetPrices windowProvider demoInst 1 Cache.empty).1)).2 =
      .ok (roundTable [volRow 2]) ∧
    cacheFind (demoInst.id, 1)
      (runFetches demoProvider ((List.range 65).map (fun i => (demoInst, i + 1)))
        Cache.empty).entries = none ∧
    (runFetches demoProvider evictionCalls Cache.empty).queries = 66 := by
  have h0 := KeyAt.of_fetch provider inst w c t h1
  have h2 := KeyAt.run provider calls ((cachedGetPrices provider inst w c).1) hk
    (by simp only [MAXSIZE]; omega) h0
  have h3 := KeyAt.find h2
  have h4 := cachedGetPrices_hit provider inst w
    (runFetches provider calls (cachedGetPrices provider inst w c).1) (inst.id, w) h3
  refine ⟨h4.2, ?_, rfl, by decide, by decide⟩
  intro hother
  rw [h4.1, lookupTable_run_ne provider calls _ hother,
    table_of_fetch provider inst w c t h1]

/-- C5 witness: a fetch on the demo instance followed by an immediate
re-fetch of the same window on the same instance: a hit, no new query,
and the originally fetched table is returned. -/
theorem C5_witness :
    (cachedGetPrices demoProvider demoInst 100 Cache.empty).2 =
      .ok (roundTable [divPosRow]) ∧
    (∀ x ∈ ([] : List (Inst × ℕ)), (x.1.id, x.2) ≠ (demoInst.id, 100)) ∧
    (cachedGetPrices demoProvider demoInst 100
        (runFetches demoProvider [] (cachedGetPrices demoProvider demoInst 100 Cache.empty).1)).1.queries =
      (runFetches demoProvider [] (cachedGetPrices demoProvider demoInst 100 Cache.empty).1).queries ∧
    (cachedGetPrices demoProvider demoInst 100
        (runFetches demoProvider [] (cachedGetPrices demoProvider demoInst 100 Cache.empty).1)).2 =
      .ok (roundTable [divPosRow]) := by
  have h1 : (cachedGetPrices demoProvider demoInst 100 Cache.empty).2 =
      .ok (roundTable [divPosRow]) := rfl
  have hc := C5_lru_cache_per_instance demoProvider demoInst 100 Cache.empty
    (roundTable [divPosRow]) [] h1 (by simp) (by simp)
  exact ⟨h1, by simp, hc.1, hc.2.1 (by simp)⟩

/-- C10: a raising `get_prices` call (empty provider result or provider
failure) is not memoised: the lru_cache entry list is unchanged by the
failing call, so a second call with the same (instance, window) key
queries the provider afresh instead of replaying a cached exception. -/
theorem C10_failures_not_cached (provider : String → ℕ → Except String (List Row))
    (inst : Inst) (w : ℕ) (c : Cache) (e : PyErr)
    (hmiss : cacheFind (inst.id, w) c.entries = none)
    (hraise : get_prices inst.symbol (provider inst.symbol w) = .error e) :
    (cachedGetPrices provider inst w c).2 = .error e ∧
    (cachedGetPrices provider inst w c).1.entries = c.entries ∧
    (cachedGetPrices provider inst w c).1.queries = c.queries + 1 ∧
    (cachedGetPrices provider inst w ((cachedGetPrices provider inst w c).1)).1.queries =
      c.queries + 2 := by
  simp [cachedGetPrices, hmiss, hraise]

/-- C10 witness: an empty provider result (the C1 scenario) on a fresh
cache; the failure is not stored and the retry queries again. -/
theorem C10_witness :
    cacheFind (demoInst.id, 7) Cache.empty.entries = none ∧
    get_prices demoInst.symbol (emptyProvider demoInst.symbol 7) =
      .error (.exn ("Error fetching data for AAPL: No data available for symbol AAPL. " ++
        "Please check if the symbol is correct.")) ∧
    (cachedGetPrices emptyProvider demoInst 7 Cache.empty).1.entries =
      Cache.empty.entries ∧
    (cachedGetPrices emptyProvider demoInst 7
        ((cachedGetPrices emptyProvider demoInst 7 Cache.empty).1)).1.queries = 2 := by
  have h := C10_failures_not_cached emptyProvider demoInst 7 Cache.empty
    (.exn ("Error fetching data for AAPL: No data available for symbol AAPL. " ++
      "Please check if the symbol is correct.")) rfl rfl
  exact ⟨rfl, rfl, h.2.1, h.2.2.2⟩

end StockWS
